import Mathlib

/-!
Shallow embedding of the core of `src/blackjack_server.js`: the blackjack
session state machine (deck, hands, scoring, transitions), the completed-game
ledger and paid-reward dedup map, the reward payout path
(`processReward` / `sendCardsReward`), the retention sweepers, and the
HTTP create endpoint.  JS `Map`s become association lists, JS arrays popped
from the end become Lean lists consumed from the head (the list holds the
cards in pop order), the external Solana transfer becomes an explicit
outcome parameter, and thrown JS errors become `Except` values.
-/

/-- Card suits, as in `createDeck`. -/
inductive Suit where
  | hearts | diamonds | clubs | spades
deriving DecidableEq

/-- Card ranks `'A','2',...,'10','J','Q','K'` from `createDeck`. -/
inductive Rank where
  | A | n2 | n3 | n4 | n5 | n6 | n7 | n8 | n9 | n10 | J | Q | K
deriving DecidableEq

/-- Value of `parseInt(card.rank, 10)` for the numeral ranks (the only ranks
that reach the `parseInt` branch of `calculateScore`). -/
def numeralValue : Rank → Nat
  | Rank.n2 => 2
  | Rank.n3 => 3
  | Rank.n4 => 4
  | Rank.n5 => 5
  | Rank.n6 => 6
  | Rank.n7 => 7
  | Rank.n8 => 8
  | Rank.n9 => 9
  | Rank.n10 => 10
  | _ => 0

/-- A card `{ suit, rank, hidden }`. -/
structure Card where
  suit : Suit
  rank : Rank
  hidden : Bool
deriving DecidableEq

/-- Game states from `VALID_GAME_STATES`. -/
inductive GameState where
  | WAITING_FOR_BET | PLAYER_TURN | DEALER_TURN | GAME_ENDED
deriving DecidableEq

/-- The transition table `VALID_GAME_STATES` / `isValidStateTransition`. -/
def isValidStateTransition : GameState → GameState → Bool
  | GameState.WAITING_FOR_BET, GameState.PLAYER_TURN => true
  | GameState.PLAYER_TURN, GameState.DEALER_TURN => true
  | GameState.PLAYER_TURN, GameState.GAME_ENDED => true
  | GameState.DEALER_TURN, GameState.GAME_ENDED => true
  | _, _ => false

/-- One step of the `for (const card of hand)` loop in `calculateScore`:
accumulates `(score, aces)`; hidden cards are skipped by the caller. -/
def scoreStep (acc : Nat × Nat) (r : Rank) : Nat × Nat :=
  match r with
  | Rank.A => (acc.1 + 11, acc.2 + 1)
  | Rank.K => (acc.1 + 10, acc.2)
  | Rank.Q => (acc.1 + 10, acc.2)
  | Rank.J => (acc.1 + 10, acc.2)
  | r => (acc.1 + numeralValue r, acc.2)

/-- The accumulation loop of `calculateScore`: `if (card.hidden) continue`
then add the rank value and count aces. -/
def scoreAcesAux (acc : Nat × Nat) : List Card → Nat × Nat
  | [] => acc
  | c :: rest => scoreAcesAux (if c.hidden then acc else scoreStep acc c.rank) rest

/-- The `(score, aces)` pair after the first loop of `calculateScore`. -/
def scoreAces (hand : List Card) : Nat × Nat := scoreAcesAux (0, 0) hand

/-- The `while (score > 21 && aces > 0) { score -= 10; aces -= 1 }` loop. -/
def reduceAces (score : Nat) : Nat → Nat
  | 0 => score
  | a + 1 => if 21 < score then reduceAces (score - 10) a else score

/-- `calculateScore(hand)` from `BlackjackGame`. -/
def calculateScore (hand : List Card) : Nat :=
  reduceAces (scoreAces hand).1 (scoreAces hand).2

example : calculateScore [⟨Suit.spades, Rank.A, false⟩, ⟨Suit.diamonds, Rank.K, false⟩] = 21 := by decide
example : calculateScore [⟨Suit.spades, Rank.A, false⟩, ⟨Suit.hearts, Rank.A, false⟩] = 12 := by decide
example : calculateScore [⟨Suit.spades, Rank.n7, false⟩, ⟨Suit.hearts, Rank.K, true⟩] = 7 := by decide

/-- A JS `Map` with string keys, as an insertion-ordered association list. -/
def SMap (α : Type) : Type := List (String × α)

instance {α : Type} [DecidableEq α] : DecidableEq (SMap α) :=
  inferInstanceAs (DecidableEq (List (String × α)))

/-- `Map.get`. -/
def mapGet {α : Type} : SMap α → String → Option α
  | [], _ => none
  | (k, v) :: rest, k' => if k = k' then some v else mapGet rest k'

/-- `Map.has`. -/
def mapHas {α : Type} : SMap α → String → Bool
  | [], _ => false
  | (k, _) :: rest, k' => k = k' || mapHas rest k'

/-- `Map.set`: replaces in place if the key is present, appends otherwise
(JS `Map` keeps the original insertion order on update). -/
def mapSet {α : Type} : SMap α → String → α → SMap α
  | [], k, v => [(k, v)]
  | (k', v') :: rest, k, v =>
      if k' = k then (k, v) :: rest else (k', v') :: mapSet rest k v

theorem mapGet_set_self {α : Type} (m : SMap α) (k : String) (v : α) :
    mapGet (mapSet m k v) k = some v := by
  induction m with
  | nil => simp [mapGet, mapSet]
  | cons p rest ih =>
      obtain ⟨k', v'⟩ := p
      by_cases h : k' = k
      · simp [mapGet, mapSet, h]
      · simp [mapGet, mapSet, h, ih]

theorem mapHas_set_self {α : Type} (m : SMap α) (k : String) (v : α) :
    mapHas (mapSet m k v) k = true := by
  induction m with
  | nil => simp [mapHas, mapSet]
  | cons p rest ih =>
      obtain ⟨k', v'⟩ := p
      by_cases h : k' = k
      · simp [mapHas, mapSet, h]
      · simp [mapHas, mapSet, h, ih]

/-- Result recorded in the completed-games ledger: `'win'` or `'loss'`. -/
inductive GameResult where
  | win | loss
deriving DecidableEq

/-- A row of the `completedGames` map:
`{ playerId, result, timestamp, processed }` as set in `markGameAsCompleted`. -/
structure CompletedEntry where
  playerId : String
  result : GameResult
  timestamp : Nat
  processed : Bool
deriving DecidableEq

/-- The `completedGames` map, keyed by `gameId`. -/
def CGMap : Type := SMap CompletedEntry

instance : DecidableEq CGMap := inferInstanceAs (DecidableEq (SMap CompletedEntry))

/-- Status stored in the `paidRewards` map: `'pending' | 'completed' | 'failed'`. -/
inductive RewardStatus where
  | pending | completed | failed
deriving DecidableEq

/-- `ENTRY_FEE = 3` CARDS tokens. -/
def ENTRY_FEE : Nat := 3

/-- A `BlackjackGame` instance's own fields. -/
structure Game where
  playerId : String
  gameId : String
  deck : List Card
  playerHand : List Card
  dealerHand : List Card
  state : GameState
  currentBet : Nat
  rewardPaid : Bool
  completed : Bool
  stateHistory : List GameState
deriving DecidableEq

/-- Errors thrown by the session operations. -/
inductive GameError where
  | invalidAction
  | alreadyCompleted
  | invalidTransition
  | deckExhausted
deriving DecidableEq

/-- Deferred side effects scheduled by `markGameAsCompleted`: the detached
`processReward()` call and the delayed `activePlayers.delete` timeout. -/
inductive Effect where
  | scheduleReward (playerId gameId : String)
  | scheduleRelease (playerId : String)
deriving DecidableEq

/-- `transitionState(newState)`: validates against the transition table,
updates `state` and appends to `stateHistory`, else throws. -/
def transitionState (g : Game) (newState : GameState) : Except GameError Game :=
  if isValidStateTransition g.state newState then
    Except.ok { g with state := newState, stateHistory := g.stateHistory ++ [newState] }
  else
    Except.error GameError.invalidTransition

/-- `markGameAsCompleted(playerWon)`: no-op when already completed; otherwise
sets `completed`, inserts the `completedGames` row (with `processed: false`
and the current time), schedules the detached reward processing when the
player won, and schedules the delayed removal from `activePlayers`. -/
def markGameAsCompleted (now : Nat) (cg : CGMap) (g : Game) (playerWon : Bool) :
    CGMap × Game × List Effect :=
  if g.completed then (cg, g, [])
  else
    ( mapSet cg g.gameId
        { playerId := g.playerId,
          result := if playerWon then GameResult.win else GameResult.loss,
          timestamp := now,
          processed := false },
      { g with completed := true },
      (if playerWon then [Effect.scheduleReward g.playerId g.gameId] else [])
        ++ [Effect.scheduleRelease g.playerId] )

/-- `dealInitialCards()`: pops two cards for the player and two for the dealer
(the dealer's second card dealt `hidden: true`); if the dealt player score is
21 the game immediately transitions to `GAME_ENDED` as a player win.  The
Lean deck list holds the JS array in pop order; a deck with fewer than four
cards is the unrecoverable pop-on-empty internal error. -/
def dealInitialCards (now : Nat) (cg : CGMap) (g : Game) :
    Except GameError (CGMap × Game × List Effect) :=
  match g.deck with
  | c1 :: c2 :: c3 :: c4 :: rest =>
      let g1 := { g with playerHand := [c1, c2],
                         dealerHand := [c3, { c4 with hidden := true }],
                         deck := rest }
      if calculateScore g1.playerHand = 21 then
        match transitionState g1 GameState.GAME_ENDED with
        | Except.error e => Except.error e
        | Except.ok g2 => Except.ok (markGameAsCompleted now cg g2 true)
      else Except.ok (cg, g1, [])
  | _ => Except.error GameError.deckExhausted

/-- `reset()`: fresh deck, empty hands, `PLAYER_TURN`, entry-fee bet, new
game id, `completed = false`, fresh history, then `dealInitialCards()`.
The shuffled 6-deck shoe and the generated id enter as parameters. -/
def resetGame (now : Nat) (cg : CGMap) (g : Game) (newDeck : List Card) (newGameId : String) :
    Except GameError (CGMap × Game × List Effect) :=
  dealInitialCards now cg
    { g with deck := newDeck,
             playerHand := [],
             dealerHand := [],
             state := GameState.PLAYER_TURN,
             currentBet := ENTRY_FEE,
             rewardPaid := false,
             gameId := newGameId,
             completed := false,
             stateHistory := [GameState.PLAYER_TURN] }

/-- `hit()`: only in `PLAYER_TURN`; pops one card onto the player hand; a
score over 21 ends the game as a loss, exactly 21 ends it as a win, else the
session stays in `PLAYER_TURN`. -/
def hitGame (now : Nat) (cg : CGMap) (g : Game) :
    Except GameError (CGMap × Game × List Effect) :=
  if g.state = GameState.PLAYER_TURN then
    match g.deck with
    | [] => Except.error GameError.deckExhausted
    | c :: rest =>
        let g1 := { g with playerHand := g.playerHand ++ [c], deck := rest }
        if 21 < calculateScore g1.playerHand then
          match transitionState g1 GameState.GAME_ENDED with
          | Except.error e => Except.error e
          | Except.ok g2 => Except.ok (markGameAsCompleted now cg g2 false)
        else if calculateScore g1.playerHand = 21 then
          match transitionState g1 GameState.GAME_ENDED with
          | Except.error e => Except.error e
          | Except.ok g2 => Except.ok (markGameAsCompleted now cg g2 true)
        else Except.ok (cg, g1, [])
  else Except.error GameError.invalidAction

/-- The card update of `this.dealerHand.map(card => ({ ...card, hidden: false }))`. -/
def revealCard (c : Card) : Card := { c with hidden := false }

/-- The `while (dealerScore < 17)` draw loop of `stand()`: pops cards onto
the dealer hand while its score is below 17; `none` is the pop-on-empty
internal error. -/
def dealerDrawLoop (hand : List Card) : List Card → Option (List Card × List Card)
  | [] => if calculateScore hand < 17 then none else some (hand, [])
  | c :: rest =>
      if calculateScore hand < 17 then dealerDrawLoop (hand ++ [c]) rest
      else some (hand, c :: rest)

/-- `stand()`: only in `PLAYER_TURN` and not `completed`; transitions to
`DEALER_TURN`, reveals the dealer hand, runs the dealer draw loop,
transitions to `GAME_ENDED`, decides the winner (player bust loses; else
dealer bust or higher player score wins; dealer wins ties) and marks the
game completed with that result. -/
def standGame (now : Nat) (cg : CGMap) (g : Game) :
    Except GameError (CGMap × Game × List Effect) :=
  if g.state = GameState.PLAYER_TURN then
    if g.completed then Except.error GameError.alreadyCompleted
    else
      match transitionState g GameState.DEALER_TURN with
      | Except.error e => Except.error e
      | Except.ok g1 =>
          match dealerDrawLoop (g1.dealerHand.map revealCard) g1.deck with
          | none => Except.error GameError.deckExhausted
          | some (dHand, deck') =>
              match transitionState { g1 with dealerHand := dHand, deck := deck' }
                      GameState.GAME_ENDED with
              | Except.error e => Except.error e
              | Except.ok g2 =>
                  let playerScore := calculateScore g2.playerHand
                  let dealerScore := calculateScore dHand
                  let playerWon :=
                    if 21 < playerScore then false
                    else if 21 < dealerScore ∨ dealerScore < playerScore then true
                    else false
                  Except.ok (markGameAsCompleted now cg g2 playerWon)
  else Except.error GameError.invalidAction

/-- A card as reported by `getGameState()`: hidden cards are replaced by the
bare `{ hidden: true }` marker, rank and suit withheld. -/
inductive ViewCard where
  | hiddenCard
  | visible (c : Card)
deriving DecidableEq

/-- `getMessage()`. -/
def getMessage (g : Game) : String :=
  match g.state with
  | GameState.WAITING_FOR_BET => "Place your bet to start the game"
  | GameState.PLAYER_TURN => "Your turn! Hit or Stand?"
  | GameState.DEALER_TURN => "Dealer\u0027s turn..."
  | GameState.GAME_ENDED =>
      if 21 < calculateScore g.playerHand then "Bust! You lost!"
      else if calculateScore g.playerHand = 21 then "Perfect 21! You win!"
      else if 21 < calculateScore g.dealerHand then "Dealer busts! You win!"
      else if calculateScore g.dealerHand < calculateScore g.playerHand then "You win!"
      else "You lost!"

/-- The JSON object returned by `getGameState()`. -/
structure GameStateView where
  playerHand : List Card
  dealerHand : List ViewCard
  state : GameState
  currentBet : Nat
  playerScore : Nat
  dealerScore : Nat
  message : String
  gameId : String
  rewardPaid : Bool
  completed : Bool
deriving DecidableEq

/-- `getGameState()`: filters hidden dealer cards down to the hidden marker
and reports the dealer score over the non-hidden dealer cards only. -/
def getGameState (g : Game) : GameStateView :=
  { playerHand := g.playerHand,
    dealerHand := g.dealerHand.map
      (fun c => if c.hidden then ViewCard.hiddenCard else ViewCard.visible c),
    state := g.state,
    currentBet := g.currentBet,
    playerScore := calculateScore g.playerHand,
    dealerScore := calculateScore (g.dealerHand.filter (fun c => !c.hidden)),
    message := getMessage g,
    gameId := g.gameId,
    rewardPaid := g.rewardPaid,
    completed := g.completed }

/-- Outcome of the external Solana interaction inside `sendCardsReward`'s
`try` block after the pending record is inserted: the transfer is submitted
and succeeds, an error occurs before the transfer is submitted (for example
the receiver has no CARDS token account), or the submission itself fails. -/
inductive XferOutcome where
  | success (signature : String)
  | failBefore
  | failAfter
deriving DecidableEq

/-- Observable steps of the payout path, in execution order. -/
inductive PayoutEvent where
  | markProcessed (gameId : String)
  | clearProcessed (gameId : String)
  | insertPending (key : String)
  | transferCall (receiver : String)
  | setCompleted (key : String)
  | setFailed (key : String)
deriving DecidableEq, BEq

/-- Whether a payout event is the external token transfer submission. -/
def isTransferEvent : PayoutEvent → Bool
  | PayoutEvent.transferCall _ => true
  | _ => false

/-- Number of external transfer submissions in an event trace. -/
def transferCount (events : List PayoutEvent) : Nat :=
  (events.filter isTransferEvent).length

/-- Result of one `sendCardsReward` call: the updated `paidRewards` map, the
trace of payout steps it performed, and its return (`none` for the early
`return null`, a signature on success) or thrown error. -/
structure SendResult where
  pr : SMap RewardStatus
  events : List PayoutEvent
  result : Except Unit (Option String)

/-- `sendCardsReward(receiverAddress, gameId)`: throws on a malformed
receiver address; returns `null` without touching anything if `paidRewards`
already has the `receiverAddress-gameId` key (whatever its status);
otherwise sets the key to `'pending'`, performs the external interaction,
and sets the key to `'completed'` on success or `'failed'` on any error
(rethrowing the error).  Address validity and the external outcome enter as
parameters. -/
def sendCardsReward (validAddr : String → Bool) (outcome : XferOutcome)
    (pr : SMap RewardStatus) (receiverAddress gameId : String) : SendResult :=
  if !validAddr receiverAddress then
    { pr := pr, events := [], result := Except.error () }
  else
    let transactionKey := receiverAddress ++ "-" ++ gameId
    if mapHas pr transactionKey then
      { pr := pr, events := [], result := Except.ok none }
    else
      let pr1 := mapSet pr transactionKey RewardStatus.pending
      match outcome with
      | XferOutcome.success sig =>
          { pr := mapSet pr1 transactionKey RewardStatus.completed,
            events := [PayoutEvent.insertPending transactionKey,
                       PayoutEvent.transferCall receiverAddress,
                       PayoutEvent.setCompleted transactionKey],
            result := Except.ok (some sig) }
      | XferOutcome.failBefore =>
          { pr := mapSet pr1 transactionKey RewardStatus.failed,
            events := [PayoutEvent.insertPending transactionKey,
                       PayoutEvent.setFailed transactionKey],
            result := Except.error () }
      | XferOutcome.failAfter =>
          { pr := mapSet pr1 transactionKey RewardStatus.failed,
            events := [PayoutEvent.insertPending transactionKey,
                       PayoutEvent.transferCall receiverAddress,
                       PayoutEvent.setFailed transactionKey],
            result := Except.error () }

/-- Result of one `processReward` call. -/
structure RewardRun where
  cg : CGMap
  pr : SMap RewardStatus
  game : Game
  events : List PayoutEvent
  ok : Bool

/-- `processReward()`: returns at once if the `completedGames` row for this
game is absent or already `processed`; otherwise sets `processed = true`,
calls `sendCardsReward(this.playerId, this.gameId)` and sets
`rewardPaid = true` on a non-throwing return; on a thrown error it sets
`processed` back to `false` and rethrows (`ok := false`). -/
def processReward (validAddr : String → Bool) (outcome : XferOutcome)
    (cg : CGMap) (pr : SMap RewardStatus) (g : Game) : RewardRun :=
  match mapGet cg g.gameId with
  | none => { cg := cg, pr := pr, game := g, events := [], ok := true }
  | some gameCompletion =>
      if gameCompletion.processed then
        { cg := cg, pr := pr, game := g, events := [], ok := true }
      else
        let cg1 := mapSet cg g.gameId { gameCompletion with processed := true }
        let s := sendCardsReward validAddr outcome pr g.playerId g.gameId
        match s.result with
        | Except.ok _ =>
            { cg := cg1, pr := s.pr, game := { g with rewardPaid := true },
              events := PayoutEvent.markProcessed g.gameId :: s.events, ok := true }
        | Except.error _ =>
            { cg := mapSet cg1 g.gameId { gameCompletion with processed := false },
              pr := s.pr, game := g,
              events := (PayoutEvent.markProcessed g.gameId :: s.events)
                          ++ [PayoutEvent.clearProcessed g.gameId],
              ok := false }

/-- `cleanupOldCompletedGames()`: deletes every `completedGames` row whose
`timestamp` is older than 24 hours, keyed on age alone. -/
def cleanupOldCompletedGames (now : Nat) (cg : CGMap) : CGMap :=
  let twentyFourHoursAgo : Int := (now : Int) - 24 * 60 * 60 * 1000
  (cg : List (String × CompletedEntry)).filter
    (fun p => !((p.2.timestamp : Int) < twentyFourHoursAgo))

/-- Digit characters of JS `Number.prototype.toString(36)` (lowercase). -/
def base36Char (n : Nat) : Char :=
  if n < 10 then Char.ofNat (48 + n) else Char.ofNat (97 + (n - 10))

/-- Base-36 digit expansion, most significant first; 64 fuel levels cover
every timestamp. -/
def toBase36Aux : Nat → Nat → List Char
  | 0, _ => []
  | fuel + 1, n =>
      if n < 36 then [base36Char n]
      else toBase36Aux fuel (n / 36) ++ [base36Char (n % 36)]

/-- JS `n.toString(36)` for a natural number, as used by `generateSecureId`
on `Date.now()`. -/
def toBase36 (n : Nat) : String := String.mk (toBase36Aux 64 n)

/-- `generateSecureId()` output shape: the current time in base 36, a dash,
then random characters (the random tail enters as a parameter). -/
def generateSecureId (now : Nat) (randomPart : String) : String :=
  toBase36 now ++ "-" ++ randomPart

/-- JS `parseInt(s, 10)`: skip leading whitespace, take an optional sign and
then the longest leading run of decimal digits; `none` is `NaN`. -/
def parseIntBase10 (s : String) : Option Int :=
  let l := s.toList.dropWhile Char.isWhitespace
  let digitsOf : List Char → Option Nat := fun cs =>
    let ds := cs.takeWhile Char.isDigit
    if ds.isEmpty then none
    else some (ds.foldl (fun acc c => acc * 10 + (c.toNat - 48)) 0)
  match l with
  | '-' :: rest => (digitsOf rest).map (fun n => -(n : Int))
  | '+' :: rest => (digitsOf rest).map (fun n => (n : Int))
  | _ => (digitsOf l).map (fun n => (n : Int))

/-- JS `key.split('-')` on the character list of a key: splits on every
dash, keeping empty segments, like `String.prototype.split` with a
one-character separator. -/
def splitDash : List Char → List (List Char)
  | [] => [[]]
  | c :: rest =>
      if c = '-' then [] :: splitDash rest
      else
        match splitDash rest with
        | [] => [[c]]
        | seg :: segs => (c :: seg) :: segs

/-- `cleanupOldPaidRewards()`: splits each `paidRewards` key on `'-'`, takes
`parts[1]`, parses it with `parseInt(_, 10)` and deletes the entry when the
parse is a number older than seven days; entries whose second segment does
not parse (`NaN`) are kept. -/
def cleanupOldPaidRewards (now : Nat) (pr : SMap RewardStatus) : SMap RewardStatus :=
  let sevenDaysAgo : Int := (now : Int) - 7 * 24 * 60 * 60 * 1000
  (pr : List (String × RewardStatus)).filter
    (fun p =>
      match splitDash p.1.toList with
      | _ :: timestampPart :: _ =>
          match parseIntBase10 (String.mk timestampPart) with
          | some t => !(t < sevenDaysAgo)
          | none => true
      | _ => true)

/-- The process-wide stores touched by the create/reset endpoints:
`games`, `activePlayers` and `completedGames`. -/
structure ServerState where
  games : SMap Game
  activePlayers : List String
  completedGames : CGMap

/-- Errors thrown by the `BlackjackGame` constructor. -/
inductive CreateError where
  | invalidAddress
  | sessionAlreadyActive
  | dealFailure
deriving DecidableEq

/-- `new BlackjackGame(playerId)`: throws `invalidAddress` if the player id
is not a valid Solana address, throws `sessionAlreadyActive` if
`activePlayers` already has the player, otherwise adds the player to
`activePlayers` and builds the session via `reset()` (which replaces every
field except `playerId`).  `gid1` is the id assigned in the constructor and
immediately superseded by `reset`'s `gid2`; the shuffled deck enters as a
parameter.  (`dealFailure` stands for the pop-on-empty internal error on a
deck shorter than four cards, unreachable with the 312-card shoe.) -/
def newBlackjackGame (validAddr : String → Bool) (now : Nat) (cg : CGMap)
    (active : List String) (playerId : String) (deck : List Card)
    (gid1 gid2 : String) :
    Except CreateError (CGMap × List String × Game × List Effect) :=
  if !validAddr playerId then Except.error CreateError.invalidAddress
  else if active.contains playerId then Except.error CreateError.sessionAlreadyActive
  else
    let active' := playerId :: active
    let g0 : Game :=
      { playerId := playerId, gameId := gid1, deck := [], playerHand := [],
        dealerHand := [], state := GameState.PLAYER_TURN, currentBet := 0,
        rewardPaid := false, completed := false, stateHistory := [] }
    match resetGame now cg g0 deck gid2 with
    | Except.error _ => Except.error CreateError.dealFailure
    | Except.ok (cg', g, effs) => Except.ok (cg', active', g, effs)

/-- HTTP responses of `POST /api/game/create`. -/
inductive CreateResponse where
  | badRequest (msg : String)
  | okJson (v : GameStateView)
  | serverError (msg : String)

/-- Whether a create response is an error response (HTTP 400/500) rather
than a 200 with a game state body. -/
def isErrorResponse : CreateResponse → Bool
  | CreateResponse.okJson _ => false
  | _ => true

/-- `POST /api/game/create`: rejects a missing or empty player id, a
malformed address, or an unpaid entry fee; if the player is already in
`activePlayers` and has a game in `games`, responds 200 with that game's
current `getGameState()` (leaving the stores untouched); if the player is
marked active without a game, drops the stale marker and proceeds;
otherwise constructs a new `BlackjackGame` and stores it under the player
id. -/
def createEndpoint (validAddr : String → Bool) (now : Nat) (deck : List Card)
    (gid1 gid2 : String) (st : ServerState) (playerId : Option String)
    (entryFeePaid : Bool) : CreateResponse × ServerState :=
  match playerId with
  | none => (CreateResponse.badRequest "Player ID is required", st)
  | some p =>
      if p = "" then (CreateResponse.badRequest "Player ID is required", st)
      else if !validAddr p then
        (CreateResponse.badRequest "Invalid player ID format. Must be a valid Solana address.", st)
      else if !entryFeePaid then
        (CreateResponse.badRequest "Entry fee must be paid before creating a game", st)
      else
        match (if st.activePlayers.contains p then mapGet st.games p else none),
              st.activePlayers.contains p with
        | some game, _ => (CreateResponse.okJson (getGameState game), st)
        | none, stale =>
            let st1 := if stale then { st with activePlayers := st.activePlayers.erase p } else st
            match newBlackjackGame validAddr now st1.completedGames st1.activePlayers p deck gid1 gid2 with
            | Except.error _ => (CreateResponse.serverError "Failed to create game", st1)
            | Except.ok (cg', active', g, _effs) =>
                (CreateResponse.okJson (getGameState g),
                 { games := mapSet st1.games p g, activePlayers := active',
                   completedGames := cg' })

/-- The accumulated ace count never carries more than a tenth of the
accumulated score: each ace adds 11 to the score. -/
theorem scoreAcesAux_le (l : List Card) : ∀ acc : Nat × Nat, 10 * acc.2 ≤ acc.1 →
    10 * (scoreAcesAux acc l).2 ≤ (scoreAcesAux acc l).1 := by
  induction l with
  | nil => intro acc h; simpa [scoreAcesAux] using h
  | cons c rest ih =>
      intro acc h
      rw [scoreAcesAux]
      apply ih
      by_cases hc : c.hidden
      · simpa [hc] using h
      · cases hr : c.rank <;> simp [hc, scoreStep, numeralValue] <;> omega

/-- Characterisation of the soft-ace reduction loop: it subtracts 10 some
number of times bounded by the ace count, lands at the largest reachable
value that is at most 21 when one exists, and otherwise subtracts for every
ace, landing at the minimal reachable value. -/
theorem reduceAces_spec : ∀ (a s : Nat), 10 * a ≤ s →
    (∃ k, k ≤ a ∧ reduceAces s a = s - 10 * k) ∧
    (s - 10 * a ≤ 21 → reduceAces s a ≤ 21 ∧
      ∀ k, k ≤ a → s - 10 * k ≤ 21 → s - 10 * k ≤ reduceAces s a) ∧
    (21 < s - 10 * a → reduceAces s a = s - 10 * a) := by
  intro a
  induction a with
  | zero =>
      intro s _
      refine ⟨⟨0, Nat.le_refl 0, by simp [reduceAces]⟩, ?_, ?_⟩
      · intro h21
        refine ⟨by simpa [reduceAces] using h21, ?_⟩
        intro k _ _
        simp [reduceAces]
      · intro _; simp [reduceAces]
  | succ a ih =>
      intro s h
      by_cases hs : 21 < s
      · have h10 : 10 * a ≤ s - 10 := by omega
        obtain ⟨⟨k, hk, hek⟩, hmax, hbust⟩ := ih (s - 10) h10
        have hred : reduceAces s (a + 1) = reduceAces (s - 10) a := by
          simp [reduceAces, hs]
        refine ⟨⟨k + 1, by omega, by rw [hred, hek]; omega⟩, ?_, ?_⟩
        · intro h21
          obtain ⟨hle21, hmx⟩ := hmax (by omega)
          refine ⟨by rw [hred]; exact hle21, ?_⟩
          intro j hj hj21
          match j with
          | 0 => exact absurd hj21 (by omega)
          | j + 1 =>
              rw [hred]
              have hmj := hmx j (by omega) (by omega)
              omega
        · intro h21
          rw [hred, hbust (by omega)]
          omega
      · have hred : reduceAces s (a + 1) = s := by simp [reduceAces, hs]
        refine ⟨⟨0, by omega, by rw [hred]; omega⟩, ?_, ?_⟩
        · intro _
          refine ⟨by omega, ?_⟩
          intro k _ _
          rw [hred]
          omega
        · intro h21
          omega

/-- The score accumulation skips hidden cards, so it is unchanged by
filtering them away. -/
theorem scoreAcesAux_filter (l : List Card) :
    ∀ acc, scoreAcesAux acc (l.filter (fun c => !c.hidden)) = scoreAcesAux acc l := by
  induction l with
  | nil => intro acc; rfl
  | cons c rest ih =>
      intro acc
      by_cases hc : c.hidden
      · simp [hc, scoreAcesAux, List.filter_cons, ih]
      · simp [hc, scoreAcesAux, List.filter_cons, ih]

/-- A hand scores the same as its non-hidden part. -/
theorem calculateScore_filter (hand : List Card) :
    calculateScore (hand.filter (fun c => !c.hidden)) = calculateScore hand := by
  simp [calculateScore, scoreAces, scoreAcesAux_filter]

/-- The raw sum of the first `calculateScore` loop, with every ace at 11. -/
def baseScore (hand : List Card) : Nat := (scoreAces hand).1

/-- The number of non-hidden aces counted by the first `calculateScore` loop. -/
def acesCount (hand : List Card) : Nat := (scoreAces hand).2

/-- The minimal reachable total: every non-hidden ace counted as 1.  The
totals reachable by valuing each ace at 1 or 11 are exactly
`minTotal + 10 * k` for `k` up to the ace count. -/
def minTotal (hand : List Card) : Nat := baseScore hand - 10 * acesCount hand

/-- Concrete hand for the score counterexample: two visible aces. -/
def handAA : List Card := [⟨Suit.spades, Rank.A, false⟩, ⟨Suit.hearts, Rank.A, false⟩]

/-- C7 counterexample: on the two-ace hand the total 2 (both aces counted
as 1) is reachable and at most 21, yet `calculateScore` returns 12, so the
function does not return the minimal reachable total that is at most 21 —
it returns the maximal one. -/
theorem score_minimal_counterexample :
    minTotal handAA + 10 * 0 = 2 ∧ 0 ≤ acesCount handAA ∧ (2 : Nat) ≤ 21 ∧
    calculateScore handAA = 12 ∧ (12 : Nat) ≠ 2 := by
  refine ⟨by decide, by decide, by decide, by decide, by decide⟩

/-- C7 (amended): `calculateScore` sums rank values (ace 11, face cards 10,
numerals their face value) over the non-hidden cards only — the score of a
hand equals the score of its non-hidden part — then reduces soft aces while
the total exceeds 21; the result is a reachable total (`minTotal + 10 * k`
with `k` at most the ace count), and it is the MAXIMAL reachable total at
most 21 when one exists, else the minimal unavoidable bust total with every
ace counted as 1.  Being a Lean function, it has no side effects. -/
theorem calculateScore_maximal_spec (hand : List Card) :
    calculateScore (hand.filter (fun c => !c.hidden)) = calculateScore hand ∧
    (∃ k, k ≤ acesCount hand ∧ calculateScore hand = minTotal hand + 10 * k) ∧
    (minTotal hand ≤ 21 → calculateScore hand ≤ 21 ∧
      ∀ k, k ≤ acesCount hand → minTotal hand + 10 * k ≤ 21 →
        minTotal hand + 10 * k ≤ calculateScore hand) ∧
    (21 < minTotal hand → calculateScore hand = minTotal hand) := by
  have hle : 10 * (scoreAces hand).2 ≤ (scoreAces hand).1 :=
    scoreAcesAux_le hand (0, 0) (by simp)
  obtain ⟨⟨k, hk, hek⟩, hmax, hbust⟩ :=
    reduceAces_spec (scoreAces hand).2 (scoreAces hand).1 hle
  have hcs : calculateScore hand = reduceAces (scoreAces hand).1 (scoreAces hand).2 := rfl
  have hmt : minTotal hand = (scoreAces hand).1 - 10 * (scoreAces hand).2 := rfl
  have hac : acesCount hand = (scoreAces hand).2 := rfl
  refine ⟨calculateScore_filter hand, ⟨(scoreAces hand).2 - k, by omega, by omega⟩, ?_, ?_⟩
  · intro h21
    obtain ⟨hle21, hmx⟩ := hmax (by omega)
    refine ⟨by omega, ?_⟩
    intro j hj hj21
    have hmj := hmx ((scoreAces hand).2 - j) (by omega) (by omega)
    omega
  · intro h21
    have := hbust (by omega)
    omega

/-- Characterisation of the dealer draw loop: the final hand extends the
starting hand by the cards taken off the top of the deck, its score is at
least 17, and every card was drawn only while the hand scored below 17. -/
theorem dealerDrawLoop_spec : ∀ (deck hand hand' deck' : List Card),
    dealerDrawLoop hand deck = some (hand', deck') →
    ∃ drawn, hand' = hand ++ drawn ∧ deck = drawn ++ deck' ∧
      17 ≤ calculateScore hand' ∧
      ∀ n, n < drawn.length → calculateScore (hand ++ drawn.take n) < 17 := by
  intro deck
  induction deck with
  | nil =>
      intro hand hand' deck' h
      rw [dealerDrawLoop] at h
      by_cases hs : calculateScore hand < 17
      · simp [hs] at h
      · simp only [hs, if_false, Option.some.injEq, Prod.mk.injEq] at h
        obtain ⟨h1, h2⟩ := h
        subst h1; subst h2
        exact ⟨[], by simp, by simp, by omega, by intro n hn; simp at hn⟩
  | cons c rest ih =>
      intro hand hand' deck' h
      rw [dealerDrawLoop] at h
      by_cases hs : calculateScore hand < 17
      · rw [if_pos hs] at h
        obtain ⟨drawn, hh, hd, hsc, hpre⟩ := ih (hand ++ [c]) hand' deck' h
        refine ⟨c :: drawn, by simpa using hh, by simpa using hd, hsc, ?_⟩
        intro n hn
        match n with
        | 0 => simpa using hs
        | n + 1 =>
            have := hpre n (by simpa using hn)
            simpa using this
      · rw [if_neg hs] at h
        simp only [Option.some.injEq, Prod.mk.injEq] at h
        obtain ⟨h1, h2⟩ := h
        subst h1; subst h2
        exact ⟨[], by simp, by simp, by omega, by intro n hn; simp at hn⟩

/-- Case analysis of a successful `stand()`: it happens only from
`PLAYER_TURN` on an uncompleted session, ends the game completed, leaves
the dealer at score 17 or more having drawn off the deck only while under
17, and records the win/loss rule in the ledger. -/
theorem standGame_ok (now : Nat) (cg cg' : CGMap) (g g' : Game) (effs : List Effect)
    (h : standGame now cg g = Except.ok (cg', g', effs)) :
    g.state = GameState.PLAYER_TURN ∧ g.completed = false ∧
    g'.state = GameState.GAME_ENDED ∧ g'.completed = true ∧
    17 ≤ calculateScore g'.dealerHand ∧
    (∃ drawn deck2, g'.dealerHand = g.dealerHand.map revealCard ++ drawn ∧
      g.deck = drawn ++ deck2 ∧
      ∀ n, n < drawn.length →
        calculateScore (g.dealerHand.map revealCard ++ drawn.take n) < 17) ∧
    mapGet cg' g.gameId = some
      { playerId := g.playerId,
        result :=
          if 21 < calculateScore g.playerHand then GameResult.loss
          else if 21 < calculateScore g'.dealerHand ∨
                  calculateScore g'.dealerHand < calculateScore g.playerHand then GameResult.win
          else GameResult.loss,
        timestamp := now,
        processed := false } := by
  by_cases hs : g.state = GameState.PLAYER_TURN
  · by_cases hc : g.completed = true
    · simp [standGame, hs, hc] at h
    · simp only [standGame, hs, if_true, hc, Bool.false_eq_true, if_false,
        transitionState, isValidStateTransition] at h
      cases hdl : dealerDrawLoop (g.dealerHand.map revealCard) g.deck with
      | none => simp [hdl] at h
      | some p =>
          obtain ⟨dHand, deck'⟩ := p
          simp only [hdl, markGameAsCompleted, hc, Bool.false_eq_true, if_false,
            Except.ok.injEq, Prod.mk.injEq] at h
          obtain ⟨hcg, hg, heff⟩ := h
          subst hcg
          subst hg
          subst heff
          obtain ⟨drawn, hhand, hdeckeq, hsc, hpre⟩ :=
            dealerDrawLoop_spec g.deck (g.dealerHand.map revealCard) dHand deck' hdl
          refine ⟨hs, by simpa using hc, rfl, rfl, ?_, ?_, ?_⟩
          · show 17 ≤ calculateScore dHand
            exact hsc
          · exact ⟨drawn, deck', hhand, hdeckeq, hpre⟩
          · show mapGet (mapSet cg g.gameId _) g.gameId = _
            rw [mapGet_set_self]
            by_cases hps : 21 < calculateScore g.playerHand
            · simp [hps]
            · by_cases hds : 21 < calculateScore dHand ∨
                  calculateScore dHand < calculateScore g.playerHand
              · simp [hps, hds]
              · simp [hps, hds]
  · simp [standGame, hs] at h

/-- Case analysis of `reset()` on a shoe of at least four cards: the dealt
hands, and the immediate completed win on a dealt 21 versus the untouched
`PLAYER_TURN` state otherwise. -/
theorem resetGame_spec (now : Nat) (cg cg' : CGMap) (g g' : Game) (effs : List Effect)
    (c1 c2 c3 c4 : Card) (rest : List Card) (gid : String)
    (h : resetGame now cg g (c1 :: c2 :: c3 :: c4 :: rest) gid = Except.ok (cg', g', effs)) :
    g'.playerHand = [c1, c2] ∧
    g'.dealerHand = [c3, { c4 with hidden := true }] ∧
    (calculateScore [c1, c2] = 21 →
      g'.state = GameState.GAME_ENDED ∧ g'.completed = true ∧
      mapGet cg' gid = some (CompletedEntry.mk g.playerId GameResult.win now false) ∧
      effs = [Effect.scheduleReward g.playerId gid, Effect.scheduleRelease g.playerId]) ∧
    (¬ calculateScore [c1, c2] = 21 →
      g'.state = GameState.PLAYER_TURN ∧ g'.completed = false ∧ cg' = cg ∧ effs = []) := by
  by_cases h21 : calculateScore [c1, c2] = 21
  · simp only [resetGame, dealInitialCards, h21, if_true, transitionState,
      isValidStateTransition, markGameAsCompleted, Bool.false_eq_true, if_false,
      Except.ok.injEq, Prod.mk.injEq] at h
    obtain ⟨hcg, hg, heff⟩ := h
    subst hcg; subst hg; subst heff
    exact ⟨rfl, rfl, fun _ => ⟨rfl, rfl, by rw [mapGet_set_self], rfl⟩,
      fun hn => absurd h21 hn⟩
  · simp only [resetGame, dealInitialCards, h21, if_false, Except.ok.injEq,
      Prod.mk.injEq] at h
    obtain ⟨hcg, hg, heff⟩ := h
    subst hcg; subst hg; subst heff
    exact ⟨rfl, rfl, fun hy => absurd hy h21, fun _ => ⟨rfl, rfl, rfl, rfl⟩⟩

/-- C6: in `PLAYER_TURN`, `stand` reveals all dealer cards, draws for the
dealer exactly while the dealer score is below 17 (ending at score at least
17, never drawing once at 17 or more), transitions to `GAME_ENDED`, and
records the result: player over 21 is a loss; otherwise dealer over 21 or
player above dealer is a win; otherwise (ties included) a loss. -/
theorem stand_dealer_play_spec (now : Nat) (cg cg' : CGMap) (g g' : Game) (effs : List Effect)
    (hdeck : ∀ c ∈ g.deck, c.hidden = false)
    (h : standGame now cg g = Except.ok (cg', g', effs)) :
    g.state = GameState.PLAYER_TURN ∧ g.completed = false ∧
    g'.state = GameState.GAME_ENDED ∧ g'.completed = true ∧
    (∀ c ∈ g'.dealerHand, c.hidden = false) ∧
    17 ≤ calculateScore g'.dealerHand ∧
    (∃ drawn, g'.dealerHand = g.dealerHand.map revealCard ++ drawn ∧
      ∀ n, n < drawn.length →
        calculateScore (g.dealerHand.map revealCard ++ drawn.take n) < 17) ∧
    mapGet cg' g.gameId = some
      { playerId := g.playerId,
        result :=
          if 21 < calculateScore g.playerHand then GameResult.loss
          else if 21 < calculateScore g'.dealerHand ∨
                  calculateScore g'.dealerHand < calculateScore g.playerHand then GameResult.win
          else GameResult.loss,
        timestamp := now,
        processed := false } := by
  obtain ⟨h1, h2, h3, h4, h5, ⟨drawn, deck2, hhand, hdk, hpre⟩, h7⟩ :=
    standGame_ok now cg cg' g g' effs h
  refine ⟨h1, h2, h3, h4, ?_, h5, ⟨drawn, hhand, hpre⟩, h7⟩
  intro c hcmem
  rw [hhand] at hcmem
  rcases List.mem_append.mp hcmem with hmem | hmem
  · obtain ⟨d, _, hd⟩ := List.mem_map.mp hmem
    rw [← hd]; rfl
  · exact hdeck c (by rw [hdk]; exact List.mem_append_left _ hmem)

/-- C5: a fresh session deals two cards to the player and two to the dealer
with the dealer's second card hidden; when the dealt player score is 21 the
session immediately reaches `GAME_ENDED` recorded as a player win — with the
dealer's two cards untouched (no dealer play) and never consulted (the
conclusion holds for every `c3`, `c4`); otherwise it stays in `PLAYER_TURN`. -/
theorem deal_natural_win_spec (now : Nat) (cg cg' : CGMap) (g g' : Game) (effs : List Effect)
    (c1 c2 c3 c4 : Card) (rest : List Card) (gid : String)
    (h : resetGame now cg g (c1 :: c2 :: c3 :: c4 :: rest) gid = Except.ok (cg', g', effs)) :
    g'.playerHand = [c1, c2] ∧
    g'.dealerHand = [c3, { c4 with hidden := true }] ∧
    (calculateScore [c1, c2] = 21 →
      g'.state = GameState.GAME_ENDED ∧ g'.completed = true ∧
      mapGet cg' gid = some (CompletedEntry.mk g.playerId GameResult.win now false) ∧
      effs = [Effect.scheduleReward g.playerId gid, Effect.scheduleRelease g.playerId]) ∧
    (¬ calculateScore [c1, c2] = 21 →
      g'.state = GameState.PLAYER_TURN ∧ g'.completed = false ∧ cg' = cg ∧ effs = []) :=
  resetGame_spec now cg cg' g g' effs c1 c2 c3 c4 rest gid h

/-- Concrete pre-state of a session whose `reset` is exercised below. -/
def wPreG : Game :=
  { playerId := "P1", gameId := "G0", deck := [], playerHand := [], dealerHand := [],
    state := GameState.GAME_ENDED, currentBet := 3, rewardPaid := false,
    completed := true, stateHistory := [] }

/-- The session produced by dealing A-spades, K-diamonds to the player. -/
def wNatG : Game :=
  { playerId := "P1", gameId := "G2", deck := [⟨Suit.clubs, Rank.n2, false⟩],
    playerHand := [⟨Suit.spades, Rank.A, false⟩, ⟨Suit.diamonds, Rank.K, false⟩],
    dealerHand := [⟨Suit.hearts, Rank.n5, false⟩, ⟨Suit.clubs, Rank.n9, true⟩],
    state := GameState.GAME_ENDED, currentBet := 3, rewardPaid := false,
    completed := true, stateHistory := [GameState.PLAYER_TURN, GameState.GAME_ENDED] }

/-- Witness for C5: a session dealt A-spades, K-diamonds (a natural 21) from
a concrete shoe ends immediately as a completed player win. -/
theorem deal_natural_win_spec_witness :
    calculateScore [⟨Suit.spades, Rank.A, false⟩, ⟨Suit.diamonds, Rank.K, false⟩] = 21 ∧
    wNatG.state = GameState.GAME_ENDED ∧ wNatG.completed = true ∧
    wNatG.playerHand = [⟨Suit.spades, Rank.A, false⟩, ⟨Suit.diamonds, Rank.K, false⟩] := by
  obtain ⟨hp, _, hwin, _⟩ :=
    deal_natural_win_spec 7 [] [("G2", CompletedEntry.mk "P1" GameResult.win 7 false)]
      wPreG wNatG
      [Effect.scheduleReward "P1" "G2", Effect.scheduleRelease "P1"]
      ⟨Suit.spades, Rank.A, false⟩ ⟨Suit.diamonds, Rank.K, false⟩
      ⟨Suit.hearts, Rank.n5, false⟩ ⟨Suit.clubs, Rank.n9, false⟩
      [⟨Suit.clubs, Rank.n2, false⟩] "G2" rfl
  obtain ⟨hst, hcm, _, _⟩ := hwin (by decide)
  exact ⟨by decide, hst, hcm, hp⟩

/-- Concrete session standing on 19 against a revealed dealer 17. -/
def wStandG : Game :=
  { playerId := "P1", gameId := "G1", deck := [],
    playerHand := [⟨Suit.clubs, Rank.n10, false⟩, ⟨Suit.hearts, Rank.n9, false⟩],
    dealerHand := [⟨Suit.diamonds, Rank.n7, false⟩, ⟨Suit.spades, Rank.K, true⟩],
    state := GameState.PLAYER_TURN, currentBet := 3, rewardPaid := false,
    completed := false, stateHistory := [GameState.PLAYER_TURN] }

/-- The session after `stand()` on `wStandG`: dealer reveals 17, draws
nothing, player wins 19 against 17. -/
def wStandG' : Game :=
  { playerId := "P1", gameId := "G1", deck := [],
    playerHand := [⟨Suit.clubs, Rank.n10, false⟩, ⟨Suit.hearts, Rank.n9, false⟩],
    dealerHand := [⟨Suit.diamonds, Rank.n7, false⟩, ⟨Suit.spades, Rank.K, false⟩],
    state := GameState.GAME_ENDED, currentBet := 3, rewardPaid := false,
    completed := true,
    stateHistory := [GameState.PLAYER_TURN, GameState.DEALER_TURN, GameState.GAME_ENDED] }

/-- Witness for C6: standing with 19 against a dealer that reveals 17 ends
the game completed, with the dealer holding at 17. -/
theorem stand_dealer_play_spec_witness :
    wStandG'.state = GameState.GAME_ENDED ∧ wStandG'.completed = true ∧
    17 ≤ calculateScore wStandG'.dealerHand := by
  obtain ⟨_, _, h3, h4, _, h6, _, _⟩ :=
    stand_dealer_play_spec 0 [] [("G1", CompletedEntry.mk "P1" GameResult.win 0 false)]
      wStandG wStandG'
      [Effect.scheduleReward "P1" "G1", Effect.scheduleRelease "P1"]
      (by simp [wStandG]) rfl
  exact ⟨h3, h4, h6⟩

/-- The fields the `BlackjackGame` constructor sets before calling
`reset()` (which replaces every field except `playerId`). -/
def initGame (pid gid : String) : Game :=
  { playerId := pid, gameId := gid, deck := [], playerHand := [], dealerHand := [],
    state := GameState.PLAYER_TURN, currentBet := 0, rewardPaid := false,
    completed := false, stateHistory := [] }

/-- Sessions reachable through the public operations: construction
(`new BlackjackGame` = `initGame` then `reset`), `hit`, `stand`, `reset`. -/
inductive ReachableGame : Game → Prop where
  | create (pid gid1 gid2 : String) (deck : List Card) (now : Nat) (cg cg' : CGMap)
      (g : Game) (effs : List Effect) :
      resetGame now cg (initGame pid gid1) deck gid2 = Except.ok (cg', g, effs) →
      ReachableGame g
  | hitStep (now : Nat) (cg cg' : CGMap) (g g' : Game) (effs : List Effect) :
      ReachableGame g → hitGame now cg g = Except.ok (cg', g', effs) → ReachableGame g'
  | standStep (now : Nat) (cg cg' : CGMap) (g g' : Game) (effs : List Effect) :
      ReachableGame g → standGame now cg g = Except.ok (cg', g', effs) → ReachableGame g'
  | resetStep (now : Nat) (cg cg' : CGMap) (g g' : Game) (deck : List Card) (gid : String)
      (effs : List Effect) :
      ReachableGame g → resetGame now cg g deck gid = Except.ok (cg', g', effs) →
      ReachableGame g'

/-- A successful `reset()` establishes the completed-iff-ended invariant. -/
theorem resetGame_inv (now : Nat) (cg cg' : CGMap) (g g' : Game) (deck : List Card)
    (gid : String) (effs : List Effect)
    (h : resetGame now cg g deck gid = Except.ok (cg', g', effs)) :
    (g'.completed = true ↔ g'.state = GameState.GAME_ENDED) := by
  match deck with
  | [] => simp [resetGame, dealInitialCards] at h
  | [_] => simp [resetGame, dealInitialCards] at h
  | [_, _] => simp [resetGame, dealInitialCards] at h
  | [_, _, _] => simp [resetGame, dealInitialCards] at h
  | c1 :: c2 :: c3 :: c4 :: rest =>
      obtain ⟨_, _, hwin, hlose⟩ := resetGame_spec now cg cg' g g' effs c1 c2 c3 c4 rest gid h
      by_cases h21 : calculateScore [c1, c2] = 21
      · obtain ⟨hst, hcm, _, _⟩ := hwin h21
        simp [hst, hcm]
      · obtain ⟨hst, hcm, _, _⟩ := hlose h21
        simp [hst, hcm]

/-- A successful `stand()` establishes the completed-iff-ended invariant. -/
theorem standGame_inv (now : Nat) (cg cg' : CGMap) (g g' : Game) (effs : List Effect)
    (h : standGame now cg g = Except.ok (cg', g', effs)) :
    (g'.completed = true ↔ g'.state = GameState.GAME_ENDED) := by
  obtain ⟨_, _, h3, h4, _⟩ := standGame_ok now cg cg' g g' effs h
  simp [h3, h4]

/-- A successful `hit()` preserves the completed-iff-ended invariant. -/
theorem hitGame_inv (now : Nat) (cg cg' : CGMap) (g g' : Game) (effs : List Effect)
    (hinv : g.completed = true ↔ g.state = GameState.GAME_ENDED)
    (h : hitGame now cg g = Except.ok (cg', g', effs)) :
    (g'.completed = true ↔ g'.state = GameState.GAME_ENDED) := by
  by_cases hs : g.state = GameState.PLAYER_TURN
  · have hc : g.completed = false := by
      cases hcb : g.completed
      · rfl
      · exact absurd (hinv.mp hcb) (by simp [hs])
    simp only [hitGame, hs, if_true] at h
    cases hdk : g.deck with
    | nil => rw [hdk] at h; simp at h
    | cons c rest =>
        rw [hdk] at h
        by_cases hbust : 21 < calculateScore (g.playerHand ++ [c])
        · simp only [hbust, if_true, transitionState, isValidStateTransition, hs,
            markGameAsCompleted, hc, Bool.false_eq_true, if_false,
            Except.ok.injEq, Prod.mk.injEq] at h
          obtain ⟨hcg, hg, heff⟩ := h
          subst hg
          simp
        · by_cases h21 : calculateScore (g.playerHand ++ [c]) = 21
          · simp only [hbust, if_false, h21, if_true, lt_self_iff_false, transitionState,
              isValidStateTransition, hs, markGameAsCompleted, hc, Bool.false_eq_true,
              Except.ok.injEq, Prod.mk.injEq] at h
            obtain ⟨hcg, hg, heff⟩ := h
            subst hg
            simp
          · simp only [hbust, if_false, h21, Except.ok.injEq, Prod.mk.injEq] at h
            obtain ⟨hcg, hg, heff⟩ := h
            subst hg
            simp [hc, hs]
  · simp [hitGame, hs] at h

/-- C10: through the public operations (create, hit, stand, reset) the
`completed` flag is true exactly when the session state is `GAME_ENDED`:
each transition into `GAME_ENDED` marks the session completed, and `reset`
restores `completed = false` together with `PLAYER_TURN` (unless the fresh
deal itself is a natural, which ends the new game again). -/
theorem completed_iff_game_ended (g : Game) (h : ReachableGame g) :
    (g.completed = true ↔ g.state = GameState.GAME_ENDED) := by
  induction h with
  | create pid gid1 gid2 deck now cg cg' g0 effs hr =>
      exact resetGame_inv now cg cg' (initGame pid gid1) g0 deck gid2 effs hr
  | hitStep now cg cg' g0 g1 effs _ hstep ih =>
      exact hitGame_inv now cg cg' g0 g1 effs ih hstep
  | standStep now cg cg' g0 g1 effs _ hstep _ =>
      exact standGame_inv now cg cg' g0 g1 effs hstep
  | resetStep now cg cg' g0 g1 deck gid effs _ hstep _ =>
      exact resetGame_inv now cg cg' g0 g1 deck gid effs hstep

/-- Witness for C10: the concrete created session `wNatG` is reachable and
satisfies the invariant. -/
theorem completed_iff_game_ended_witness :
    wNatG.completed = true ↔ wNatG.state = GameState.GAME_ENDED := by
  have hreach : ReachableGame wNatG :=
    ReachableGame.create "P1" "G0" "G2"
      [⟨Suit.spades, Rank.A, false⟩, ⟨Suit.diamonds, Rank.K, false⟩,
       ⟨Suit.hearts, Rank.n5, false⟩, ⟨Suit.clubs, Rank.n9, false⟩,
       ⟨Suit.clubs, Rank.n2, false⟩] 7 []
      [("G2", CompletedEntry.mk "P1" GameResult.win 7 false)] wNatG
      [Effect.scheduleReward "P1" "G2", Effect.scheduleRelease "P1"] rfl
  exact completed_iff_game_ended wNatG hreach

/-- When the dedup key is already present, `sendCardsReward` performs no
payout step and leaves the map unchanged (it either throws on a bad address
or returns `null` at the `paidRewards.has` check). -/
theorem sendCardsReward_hasKey (validAddr : String → Bool) (o : XferOutcome)
    (pr : SMap RewardStatus) (r gid : String)
    (hk : mapHas pr (r ++ "-" ++ gid) = true) :
    (sendCardsReward validAddr o pr r gid).events = [] ∧
    (sendCardsReward validAddr o pr r gid).pr = pr := by
  by_cases hv : validAddr r = true
  · simp [sendCardsReward, hv, hk]
  · simp only [Bool.not_eq_true] at hv
    simp [sendCardsReward, hv]

/-- One `sendCardsReward` call submits at most one transfer. -/
theorem sendCardsReward_transfer_le_one (validAddr : String → Bool) (o : XferOutcome)
    (pr : SMap RewardStatus) (r gid : String) :
    transferCount (sendCardsReward validAddr o pr r gid).events ≤ 1 := by
  by_cases hv : validAddr r = true
  · by_cases hk : mapHas pr (r ++ "-" ++ gid) = true
    · simp [sendCardsReward, hv, hk, transferCount]
    · simp only [Bool.not_eq_true] at hk
      cases o <;> simp [sendCardsReward, hv, hk, transferCount, isTransferEvent,
        List.filter_cons]
  · simp only [Bool.not_eq_true] at hv
    simp [sendCardsReward, hv, transferCount]

/-- If `sendCardsReward` submitted a transfer, the dedup key is present in
the resulting map (as `completed` or `failed`). -/
theorem sendCardsReward_transfer_sets_key (validAddr : String → Bool) (o : XferOutcome)
    (pr : SMap RewardStatus) (r gid : String)
    (ht : transferCount (sendCardsReward validAddr o pr r gid).events ≠ 0) :
    mapHas (sendCardsReward validAddr o pr r gid).pr (r ++ "-" ++ gid) = true := by
  by_cases hv : validAddr r = true
  · by_cases hk : mapHas pr (r ++ "-" ++ gid) = true
    · exfalso; apply ht; simp [sendCardsReward, hv, hk, transferCount]
    · simp only [Bool.not_eq_true] at hk
      cases o <;> simp [sendCardsReward, hv, hk, mapHas_set_self]
  · exfalso
    apply ht
    simp only [Bool.not_eq_true] at hv
    simp [sendCardsReward, hv, transferCount]

/-- A `processReward` call either short-circuits at the ledger check (no
events, nothing touched) or delegates its transfer activity and dedup-map
result to the inner `sendCardsReward` call. -/
theorem processReward_cases (validAddr : String → Bool) (o : XferOutcome)
    (cg : CGMap) (pr : SMap RewardStatus) (g : Game) :
    ((processReward validAddr o cg pr g).events = [] ∧
     (processReward validAddr o cg pr g).pr = pr ∧
     (processReward validAddr o cg pr g).game = g) ∨
    (transferCount (processReward validAddr o cg pr g).events =
       transferCount (sendCardsReward validAddr o pr g.playerId g.gameId).events ∧
     (processReward validAddr o cg pr g).pr =
       (sendCardsReward validAddr o pr g.playerId g.gameId).pr ∧
     (processReward validAddr o cg pr g).game.playerId = g.playerId ∧
     (processReward validAddr o cg pr g).game.gameId = g.gameId) := by
  simp only [processReward]
  cases hcg : mapGet cg g.gameId with
  | none => exact Or.inl ⟨rfl, rfl, rfl⟩
  | some e =>
      by_cases hp : e.processed = true
      · left; simp [hp]
      · right
        simp only [hp, if_false]
        cases hr : (sendCardsReward validAddr o pr g.playerId g.gameId).result with
        | ok v =>
            refine ⟨?_, by simp, by simp, by simp⟩
            simp [transferCount, isTransferEvent, List.filter_cons]
        | error u =>
            refine ⟨?_, by simp, by simp, by simp⟩
            simp [transferCount, isTransferEvent, List.filter_cons, List.filter_append]

/-- A payout invocation whose dedup key is already present submits no
transfer, whatever the ledger row and the external outcome. -/
theorem processReward_no_transfer_of_hasKey (validAddr : String → Bool) (o : XferOutcome)
    (cg : CGMap) (pr : SMap RewardStatus) (g : Game)
    (hk : mapHas pr (g.playerId ++ "-" ++ g.gameId) = true) :
    transferCount (processReward validAddr o cg pr g).events = 0 := by
  rcases processReward_cases validAddr o cg pr g with ⟨hev, _, _⟩ | ⟨hcnt, _, _, _⟩
  · rw [hev]; rfl
  · rw [hcnt, (sendCardsReward_hasKey validAddr o pr g.playerId g.gameId hk).1]; rfl

/-- One payout invocation submits at most one transfer. -/
theorem processReward_transfer_le_one (validAddr : String → Bool) (o : XferOutcome)
    (cg : CGMap) (pr : SMap RewardStatus) (g : Game) :
    transferCount (processReward validAddr o cg pr g).events ≤ 1 := by
  rcases processReward_cases validAddr o cg pr g with ⟨hev, _, _⟩ | ⟨hcnt, _, _, _⟩
  · rw [hev]; simp [transferCount]
  · rw [hcnt]; exact sendCardsReward_transfer_le_one validAddr o pr g.playerId g.gameId

/-- If a payout invocation submitted a transfer, it left the dedup key
present in `paidRewards`. -/
theorem processReward_transfer_sets_key (validAddr : String → Bool) (o : XferOutcome)
    (cg : CGMap) (pr : SMap RewardStatus) (g : Game)
    (ht : transferCount (processReward validAddr o cg pr g).events ≠ 0) :
    mapHas (processReward validAddr o cg pr g).pr (g.playerId ++ "-" ++ g.gameId) = true := by
  rcases processReward_cases validAddr o cg pr g with ⟨hev, _, _⟩ | ⟨hcnt, hpr, _, _⟩
  · rw [hev] at ht; exact absurd rfl ht
  · rw [hpr]
    apply sendCardsReward_transfer_sets_key
    rw [← hcnt]; exact ht

/-- C1: if a dedup record already exists for the `(playerId, sessionId)`
key — whatever its status — a payout invocation returns without submitting
a transfer; and across a first payout invocation and a second one for the
same key run on the resulting state, at most one transfer is submitted in
total, whatever either external outcome. -/
theorem reward_dedup_no_double_transfer (validAddr : String → Bool) (o1 o2 : XferOutcome)
    (cg : CGMap) (pr : SMap RewardStatus) (g : Game) :
    (mapHas pr (g.playerId ++ "-" ++ g.gameId) = true →
      transferCount (processReward validAddr o1 cg pr g).events = 0) ∧
    transferCount (processReward validAddr o1 cg pr g).events +
      transferCount (processReward validAddr o2
        (processReward validAddr o1 cg pr g).cg
        (processReward validAddr o1 cg pr g).pr
        (processReward validAddr o1 cg pr g).game).events ≤ 1 := by
  refine ⟨fun hk => processReward_no_transfer_of_hasKey validAddr o1 cg pr g hk, ?_⟩
  by_cases h1 : transferCount (processReward validAddr o1 cg pr g).events = 0
  · rw [h1]
    simpa using processReward_transfer_le_one validAddr o2
      (processReward validAddr o1 cg pr g).cg
      (processReward validAddr o1 cg pr g).pr
      (processReward validAddr o1 cg pr g).game
  · have hk := processReward_transfer_sets_key validAddr o1 cg pr g h1
    rcases processReward_cases validAddr o1 cg pr g with ⟨hev, _, _⟩ | ⟨_, _, hpid, hgid⟩
    · exact absurd (by rw [hev]; rfl) h1
    · have h2 : transferCount (processReward validAddr o2
          (processReward validAddr o1 cg pr g).cg
          (processReward validAddr o1 cg pr g).pr
          (processReward validAddr o1 cg pr g).game).events = 0 := by
        apply processReward_no_transfer_of_hasKey
        rw [hpid, hgid]
        exact hk
      have hle := processReward_transfer_le_one validAddr o1 cg pr g
      omega

/-- Session completed as a win whose payout path is exercised below. -/
def wRewardG : Game :=
  { playerId := "P1", gameId := "G1", deck := [], playerHand := [], dealerHand := [],
    state := GameState.GAME_ENDED, currentBet := 3, rewardPaid := false,
    completed := true, stateHistory := [] }

/-- Ledger holding the unprocessed win row for `wRewardG`. -/
def wRewardCg : CGMap := [("G1", CompletedEntry.mk "P1" GameResult.win 0 false)]

/-- Witness for C1: with the dedup key already recorded as `failed`, a
payout invocation submits no transfer. -/
theorem reward_dedup_no_double_transfer_witness :
    transferCount (processReward (fun _ => true) XferOutcome.failBefore wRewardCg
      [("P1-G1", RewardStatus.failed)] wRewardG).events = 0 :=
  (reward_dedup_no_double_transfer (fun _ => true) XferOutcome.failBefore
    XferOutcome.failBefore wRewardCg [("P1-G1", RewardStatus.failed)] wRewardG).1
    (by decide)

/-- C2: when the external transfer fails, the payout path leaves the dedup
record at `failed`, sets the ledger row's `processed` back to `false`, and
rethrows; a later invocation for the same key submits no transfer (there is
no automatic retry: the failed record still gates the dedup check). -/
theorem reward_failure_terminal (validAddr : String → Bool) (o2 : XferOutcome)
    (cg : CGMap) (pr : SMap RewardStatus) (g : Game) (e : CompletedEntry)
    (h1 : mapGet cg g.gameId = some e) (h2 : e.processed = false)
    (h3 : mapHas pr (g.playerId ++ "-" ++ g.gameId) = false)
    (h4 : validAddr g.playerId = true) :
    mapGet (processReward validAddr XferOutcome.failAfter cg pr g).pr
      (g.playerId ++ "-" ++ g.gameId) = some RewardStatus.failed ∧
    mapGet (processReward validAddr XferOutcome.failAfter cg pr g).cg g.gameId =
      some { e with processed := false } ∧
    transferCount (processReward validAddr XferOutcome.failAfter cg pr g).events = 1 ∧
    (processReward validAddr XferOutcome.failAfter cg pr g).ok = false ∧
    transferCount (processReward validAddr o2
      (processReward validAddr XferOutcome.failAfter cg pr g).cg
      (processReward validAddr XferOutcome.failAfter cg pr g).pr
      (processReward validAddr XferOutcome.failAfter cg pr g).game).events = 0 := by
  have hsend : sendCardsReward validAddr XferOutcome.failAfter pr g.playerId g.gameId =
      { pr := mapSet (mapSet pr (g.playerId ++ "-" ++ g.gameId) RewardStatus.pending)
                (g.playerId ++ "-" ++ g.gameId) RewardStatus.failed,
        events := [PayoutEvent.insertPending (g.playerId ++ "-" ++ g.gameId),
                   PayoutEvent.transferCall g.playerId,
                   PayoutEvent.setFailed (g.playerId ++ "-" ++ g.gameId)],
        result := Except.error () } := by
    simp [sendCardsReward, h4, h3]
  have hrun : processReward validAddr XferOutcome.failAfter cg pr g =
      { cg := mapSet (mapSet cg g.gameId { e with processed := true }) g.gameId
                { e with processed := false },
        pr := mapSet (mapSet pr (g.playerId ++ "-" ++ g.gameId) RewardStatus.pending)
                (g.playerId ++ "-" ++ g.gameId) RewardStatus.failed,
        game := g,
        events := [PayoutEvent.markProcessed g.gameId,
                   PayoutEvent.insertPending (g.playerId ++ "-" ++ g.gameId),
                   PayoutEvent.transferCall g.playerId,
                   PayoutEvent.setFailed (g.playerId ++ "-" ++ g.gameId),
                   PayoutEvent.clearProcessed g.gameId],
        ok := false } := by
    simp [processReward, h1, h2, hsend]
  rw [hrun]
  refine ⟨mapGet_set_self _ _ _, mapGet_set_self _ _ _,
    by simp [transferCount, isTransferEvent, List.filter_cons], rfl, ?_⟩
  exact processReward_no_transfer_of_hasKey validAddr o2 _ _ g (mapHas_set_self _ _ _)

/-- Witness for C2: the failed payout for the concrete win leaves the key
`failed` and the run rethrows. -/
theorem reward_failure_terminal_witness :
    mapGet (processReward (fun _ => true) XferOutcome.failAfter wRewardCg [] wRewardG).pr
      (wRewardG.playerId ++ "-" ++ wRewardG.gameId) = some RewardStatus.failed ∧
    (processReward (fun _ => true) XferOutcome.failAfter wRewardCg [] wRewardG).ok = false := by
  obtain ⟨hA, _, _, hD, _⟩ :=
    reward_failure_terminal (fun _ => true) XferOutcome.failBefore wRewardCg [] wRewardG
      (CompletedEntry.mk "P1" GameResult.win 0 false) (by decide) rfl (by decide) rfl
  exact ⟨hA, hD⟩

/-- C3 counterexample: on the first payout invocation for the concrete win,
the trace sets the ledger row `processed = true` FIRST and only then
inserts the pending dedup record, so the claimed order (insert the pending
record before marking processed) is false at this input. -/
theorem reward_order_counterexample :
    (processReward (fun _ => true) (XferOutcome.success "sig") wRewardCg [] wRewardG).events =
      [PayoutEvent.markProcessed "G1", PayoutEvent.insertPending "P1-G1",
       PayoutEvent.transferCall "P1", PayoutEvent.setCompleted "P1-G1"] ∧
    ¬ List.indexOf (PayoutEvent.insertPending "P1-G1")
        [PayoutEvent.markProcessed "G1", PayoutEvent.insertPending "P1-G1",
         PayoutEvent.transferCall "P1", PayoutEvent.setCompleted "P1-G1"] <
      List.indexOf (PayoutEvent.markProcessed "G1")
        [PayoutEvent.markProcessed "G1", PayoutEvent.insertPending "P1-G1",
         PayoutEvent.transferCall "P1", PayoutEvent.setCompleted "P1-G1"] := by
  exact ⟨by decide, by decide⟩

/-- C3 (amended): on the first payout invocation for a winning session the
coordinator marks the ledger row `processed = true` BEFORE inserting the
pending dedup record, and only then submits the external transfer. -/
theorem reward_order_actual (validAddr : String → Bool) (sig : String)
    (cg : CGMap) (pr : SMap RewardStatus) (g : Game) (e : CompletedEntry)
    (h1 : mapGet cg g.gameId = some e) (h2 : e.processed = false)
    (h3 : mapHas pr (g.playerId ++ "-" ++ g.gameId) = false)
    (h4 : validAddr g.playerId = true) :
    (processReward validAddr (XferOutcome.success sig) cg pr g).events =
      [PayoutEvent.markProcessed g.gameId,
       PayoutEvent.insertPending (g.playerId ++ "-" ++ g.gameId),
       PayoutEvent.transferCall g.playerId,
       PayoutEvent.setCompleted (g.playerId ++ "-" ++ g.gameId)] := by
  have hsend : sendCardsReward validAddr (XferOutcome.success sig) pr g.playerId g.gameId =
      { pr := mapSet (mapSet pr (g.playerId ++ "-" ++ g.gameId) RewardStatus.pending)
                (g.playerId ++ "-" ++ g.gameId) RewardStatus.completed,
        events := [PayoutEvent.insertPending (g.playerId ++ "-" ++ g.gameId),
                   PayoutEvent.transferCall g.playerId,
                   PayoutEvent.setCompleted (g.playerId ++ "-" ++ g.gameId)],
        result := Except.ok (some sig) } := by
    simp [sendCardsReward, h4, h3]
  simp [processReward, h1, h2, hsend]

/-- Witness for C3 (amended): the success-path trace at the concrete win. -/
theorem reward_order_actual_witness :
    (processReward (fun _ => true) (XferOutcome.success "sig") wRewardCg [] wRewardG).events =
      [PayoutEvent.markProcessed wRewardG.gameId,
       PayoutEvent.insertPending (wRewardG.playerId ++ "-" ++ wRewardG.gameId),
       PayoutEvent.transferCall wRewardG.playerId,
       PayoutEvent.setCompleted (wRewardG.playerId ++ "-" ++ wRewardG.gameId)] :=
  reward_order_actual (fun _ => true) "sig" wRewardCg [] wRewardG
    (CompletedEntry.mk "P1" GameResult.win 0 false) (by decide) rfl (by decide) rfl

/-- C4: the completed-games sweeper purges on age alone as specified (the
25-hour-old row goes, the 23-hour-old row stays), but the paid-rewards
sweeper never removes a realistically aged dedup record: its key embeds
`Date.now().toString(36)` — here "mgoaeqyo", which starts with a letter for
every contemporary timestamp — while the sweeper parses that segment with
`parseInt(_, 10)`, getting `NaN`, so the eight-day-old record is retained
even though the seven-day window has long passed. -/
theorem cleanup_retention_divergence :
    cleanupOldCompletedGames 1761000000000
      [("g1", CompletedEntry.mk "P" GameResult.loss (1761000000000 - 25 * 3600000) false),
       ("g2", CompletedEntry.mk "P" GameResult.loss (1761000000000 - 23 * 3600000) false)] =
      [("g2", CompletedEntry.mk "P" GameResult.loss (1761000000000 - 23 * 3600000) false)] ∧
    toBase36 (1761000000000 - 8 * 24 * 3600000) = "mgoaeqyo" ∧
    parseIntBase10 "mgoaeqyo" = none ∧
    cleanupOldPaidRewards 1761000000000
      [("RCVR-" ++ generateSecureId (1761000000000 - 8 * 24 * 3600000) "abc123",
        RewardStatus.completed)] =
      [("RCVR-" ++ generateSecureId (1761000000000 - 8 * 24 * 3600000) "abc123",
        RewardStatus.completed)] := by
  exact ⟨by decide, by decide, by decide, by decide⟩

/-- Two cards agree on everything an observer may see: equal `hidden` flags
and, when not hidden, equal rank and suit. -/
def sameVisibleCard (c d : Card) : Bool :=
  c.hidden == d.hidden && (c.hidden || decide (c = d))

/-- Pointwise `sameVisibleCard` on hands of equal length. -/
def sameVisibleHand : List Card → List Card → Bool
  | [], [] => true
  | c :: cs, d :: ds => sameVisibleCard c d && sameVisibleHand cs ds
  | _, _ => false

/-- The score accumulation cannot distinguish hands that agree on their
visible parts: hidden cards are skipped outright. -/
theorem scoreAcesAux_sameVisible : ∀ (h1 h2 : List Card),
    sameVisibleHand h1 h2 = true → ∀ acc, scoreAcesAux acc h1 = scoreAcesAux acc h2 := by
  intro h1
  induction h1 with
  | nil =>
      intro h2 hh acc
      cases h2 with
      | nil => rfl
      | cons d ds => simp [sameVisibleHand] at hh
  | cons c cs ih =>
      intro h2 hh acc
      cases h2 with
      | nil => simp [sameVisibleHand] at hh
      | cons d ds =>
          simp only [sameVisibleHand, Bool.and_eq_true] at hh
          obtain ⟨⟨hhid, hvis⟩, hrest⟩ :=
            And.imp_left (fun hcd => by
              simpa only [sameVisibleCard, Bool.and_eq_true] using hcd) hh
          have hhid' : c.hidden = d.hidden := by simpa using hhid
          rw [scoreAcesAux, scoreAcesAux]
          by_cases hch : c.hidden = true
          · rw [if_pos hch, if_pos (hhid' ▸ hch)]
            exact ih ds hrest acc
          · have hch' : c.hidden = false := by simpa using hch
            have hcd : c = d := by
              rcases Bool.or_eq_true_iff.mp hvis with hx | hx
              · exact absurd hx hch
              · exact of_decide_eq_true hx
            rw [if_neg hch, if_neg (by rw [← hhid']; exact hch), hcd]
            exact ih ds hrest _

/-- Hands agreeing on their visible parts score identically. -/
theorem calculateScore_sameVisible (h1 h2 : List Card)
    (hh : sameVisibleHand h1 h2 = true) :
    calculateScore h1 = calculateScore h2 := by
  unfold calculateScore scoreAces
  rw [scoreAcesAux_sameVisible h1 h2 hh]

/-- Hands agreeing on their visible parts have equal visible parts. -/
theorem filter_sameVisible : ∀ (h1 h2 : List Card),
    sameVisibleHand h1 h2 = true →
    h1.filter (fun c => !c.hidden) = h2.filter (fun c => !c.hidden) := by
  intro h1
  induction h1 with
  | nil =>
      intro h2 hh
      cases h2 with
      | nil => rfl
      | cons d ds => simp [sameVisibleHand] at hh
  | cons c cs ih =>
      intro h2 hh
      cases h2 with
      | nil => simp [sameVisibleHand] at hh
      | cons d ds =>
          simp only [sameVisibleHand, Bool.and_eq_true, sameVisibleCard] at hh
          obtain ⟨⟨hhid, hvis⟩, hrest⟩ := hh
          have hhid' : c.hidden = d.hidden := by simpa using hhid
          by_cases hch : c.hidden = true
          · simp [List.filter_cons, hch, ← hhid', ih ds hrest]
          · have hch' : c.hidden = false := by simpa using hch
            have hcd : c = d := by
              rcases Bool.or_eq_true_iff.mp hvis with hx | hx
              · exact absurd hx hch
              · exact of_decide_eq_true hx
            simp [List.filter_cons, hch', ← hhid', ← hcd, ih ds hrest]

/-- Hands agreeing on their visible parts yield the same reported view:
hidden cards map to the bare hidden marker either way. -/
theorem mapView_sameVisible : ∀ (h1 h2 : List Card),
    sameVisibleHand h1 h2 = true →
    h1.map (fun c => if c.hidden then ViewCard.hiddenCard else ViewCard.visible c) =
    h2.map (fun c => if c.hidden then ViewCard.hiddenCard else ViewCard.visible c) := by
  intro h1
  induction h1 with
  | nil =>
      intro h2 hh
      cases h2 with
      | nil => rfl
      | cons d ds => simp [sameVisibleHand] at hh
  | cons c cs ih =>
      intro h2 hh
      cases h2 with
      | nil => simp [sameVisibleHand] at hh
      | cons d ds =>
          simp only [sameVisibleHand, Bool.and_eq_true, sameVisibleCard] at hh
          obtain ⟨⟨hhid, hvis⟩, hrest⟩ := hh
          have hhid' : c.hidden = d.hidden := by simpa using hhid
          by_cases hch : c.hidden = true
          · simp only [List.map_cons, hch, if_true, hhid' ▸ hch, ih ds hrest]
          · have hch' : c.hidden = false := by simpa using hch
            have hcd : c = d := by
              rcases Bool.or_eq_true_iff.mp hvis with hx | hx
              · exact absurd hx hch
              · exact of_decide_eq_true hx
            simp only [List.map_cons, hch, if_neg, ih ds hrest, ← hcd]

/-- `getMessage` depends only on the state, the player hand and the dealer
score. -/
theorem getMessage_congr (g1 g2 : Game) (hst : g1.state = g2.state)
    (hph : g1.playerHand = g2.playerHand)
    (hds : calculateScore g1.dealerHand = calculateScore g2.dealerHand) :
    getMessage g1 = getMessage g2 := by
  unfold getMessage
  rw [hst, hph, hds]

/-- Every hidden card of a hand is reported as the bare hidden marker at
its position in the mapped view. -/
theorem view_hides_hidden (l : List Card) :
    List.Forall₂ (fun (c : Card) (v : ViewCard) => c.hidden = true → v = ViewCard.hiddenCard)
      l (l.map (fun c => if c.hidden then ViewCard.hiddenCard else ViewCard.visible c)) := by
  induction l with
  | nil => exact List.Forall₂.nil
  | cons c cs ih =>
      refine List.Forall₂.cons ?_ ih
      intro hc
      simp [hc]

/-- C8: the snapshot reports a hidden card only as the bare hidden marker,
and two sessions that differ only in the concealed rank/suit of hidden
dealer cards (such as the hole card) produce identical snapshots — the
hidden card's rank and suit reach no field of the returned view, the
reported dealer score included. -/
theorem snapshot_hides_hole_card (g1 g2 : Game)
    (hquiet : sameVisibleHand g1.dealerHand g2.dealerHand = true)
    (hph : g1.playerHand = g2.playerHand) (hst : g1.state = g2.state)
    (hbet : g1.currentBet = g2.currentBet) (hgid : g1.gameId = g2.gameId)
    (hrp : g1.rewardPaid = g2.rewardPaid) (hcm : g1.completed = g2.completed) :
    getGameState g1 = getGameState g2 ∧
    List.Forall₂ (fun (c : Card) (v : ViewCard) => c.hidden = true → v = ViewCard.hiddenCard)
      g1.dealerHand (getGameState g1).dealerHand := by
  constructor
  · unfold getGameState
    rw [hph, hst, hbet, hgid, hrp, hcm,
      mapView_sameVisible g1.dealerHand g2.dealerHand hquiet,
      filter_sameVisible g1.dealerHand g2.dealerHand hquiet,
      getMessage_congr g1 g2 hst hph (calculateScore_sameVisible _ _ hquiet)]
  · exact view_hides_hidden g1.dealerHand

/-- The session `wStandG` with its hole card swapped from K-spades to
2-hearts (still hidden). -/
def wSnapG2 : Game :=
  { playerId := "P1", gameId := "G1", deck := [],
    playerHand := [⟨Suit.clubs, Rank.n10, false⟩, ⟨Suit.hearts, Rank.n9, false⟩],
    dealerHand := [⟨Suit.diamonds, Rank.n7, false⟩, ⟨Suit.hearts, Rank.n2, true⟩],
    state := GameState.PLAYER_TURN, currentBet := 3, rewardPaid := false,
    completed := false, stateHistory := [GameState.PLAYER_TURN] }

/-- Witness for C8: swapping the hidden hole card of `wStandG` from a king
to a two leaves the snapshot identical. -/
theorem snapshot_hides_hole_card_witness :
    sameVisibleHand wStandG.dealerHand wSnapG2.dealerHand = true ∧
    getGameState wStandG = getGameState wSnapG2 :=
  ⟨by decide,
   (snapshot_hides_hole_card wStandG wSnapG2 (by decide) rfl rfl rfl rfl rfl rfl).1⟩

/-- C9 counterexample: with player "P1" active and holding the live session
`wStandG`, a create request for "P1" does not fail with an error — the
endpoint responds 200 with the existing game's state — though it also
creates no second session (the stores are untouched). -/
theorem create_active_no_error_counterexample :
    isErrorResponse (createEndpoint (fun _ => true) 0 [] "I1" "G9"
      (ServerState.mk [("P1", wStandG)] ["P1"] []) (some "P1") true).1 = false ∧
    (createEndpoint (fun _ => true) 0 [] "I1" "G9"
      (ServerState.mk [("P1", wStandG)] ["P1"] []) (some "P1") true).2.games =
      [("P1", wStandG)] ∧
    (createEndpoint (fun _ => true) 0 [] "I1" "G9"
      (ServerState.mk [("P1", wStandG)] ["P1"] []) (some "P1") true).2.activePlayers =
      ["P1"] := by
  exact ⟨rfl, rfl, rfl⟩

/-- C9 (amended): a create request for a playerId that is active and holds
a live session does not produce a second live session — the endpoint
responds with the existing session's state and leaves the stores untouched,
with no error; the `BlackjackGame` constructor itself, invoked while the
player is marked active, does throw the session-already-active error. -/
theorem create_active_behavior (validAddr : String → Bool) (now : Nat) (deck : List Card)
    (gid1 gid2 : String) (st : ServerState) (p : String) (game : Game)
    (cg : CGMap) (active : List String) (deck2 : List Card) (gid3 gid4 : String)
    (hp : ¬ p = "") (hv : validAddr p = true)
    (hact : st.activePlayers.contains p = true)
    (hgame : mapGet st.games p = some game)
    (hact2 : active.contains p = true) :
    createEndpoint validAddr now deck gid1 gid2 st (some p) true =
      (CreateResponse.okJson (getGameState game), st) ∧
    newBlackjackGame validAddr now cg active p deck2 gid3 gid4 =
      Except.error CreateError.sessionAlreadyActive := by
  have hmem : p ∈ st.activePlayers := by simpa using hact
  have hmem2 : p ∈ active := by simpa using hact2
  constructor
  · simp [createEndpoint, hp, hv, hmem, hgame]
  · simp [newBlackjackGame, hv, hmem2]

/-- Witness for C9 (amended): the concrete active player "P1" with live
session `wStandG`. -/
theorem create_active_behavior_witness :
    createEndpoint (fun _ => true) 0 [] "I1" "G9"
      (ServerState.mk [("P1", wStandG)] ["P1"] []) (some "P1") true =
      (CreateResponse.okJson (getGameState wStandG),
       ServerState.mk [("P1", wStandG)] ["P1"] []) ∧
    newBlackjackGame (fun _ => true) 0 [] ["P1"] "P1" [] "I2" "G8" =
      Except.error CreateError.sessionAlreadyActive :=
  create_active_behavior (fun _ => true) 0 [] "I1" "G9"
    (ServerState.mk [("P1", wStandG)] ["P1"] []) "P1" wStandG [] ["P1"] [] "I2" "G8"
    (by decide) rfl (by decide) (by decide) (by decide)

/-- Witness for C7 (amended): on the two-ace hand the reachable total 12
(one ace at 11) is at most 21 and is reached by `calculateScore`. -/
theorem calculateScore_maximal_spec_witness :
    minTotal handAA ≤ 21 ∧ calculateScore handAA ≤ 21 ∧
    minTotal handAA + 10 * 1 ≤ calculateScore handAA := by
  obtain ⟨_, _, hmax, _⟩ := calculateScore_maximal_spec handAA
  obtain ⟨hle, hmx⟩ := hmax (by decide)
  exact ⟨by decide, hle, hmx 1 (by decide) (by decide)⟩
